import Mathlib

/-!
Shallow embedding of the `dn` natural-deduction proof checker
(crate `dn-lib`: `formula.rs`, `justif.rs`, `record.rs`, `proof.rs`).

Rust `Vec` stacks are modelled as Lean `List`s with the *top at the head*;
`Vec::push`/`pop` become cons/`tail`.  Machine integers (`usize`) are `Nat`
(record indices are small; no overflow is reachable in any claim).
Fallible Rust code returns `Except`; code that can also *panic*
(`assert_eq!` on a pop, `unwrap`) returns `DResult`, whose `panicked`
value models the panic.  `debug_assert_eq!(Some(x), stack.pop())` both
pops and checks under the dev profile; we model the pop and map an
assertion failure to `panicked`.  The `eprintln!` tracing in `eat` has no
semantic effect and is omitted.
-/

namespace DN

/-- Result of Rust code that may return a value, return an error, or panic. -/
inductive DResult (ε : Type) (α : Type) where
  | ok (a : α)
  | err (e : ε)
  | panicked
deriving DecidableEq, Repr

instance {ε α : Type} [DecidableEq ε] [DecidableEq α] :
    DecidableEq (Except ε α) := fun x y =>
  match x, y with
  | .ok a, .ok b =>
    if h : a = b then .isTrue (by rw [h]) else .isFalse (by simp [h])
  | .error e, .error e2 =>
    if h : e = e2 then .isTrue (by rw [h]) else .isFalse (by simp [h])
  | .ok _, .error _ => .isFalse (by simp)
  | .error _, .ok _ => .isFalse (by simp)

/-- `Formula` from `formula.rs`: the propositional AST. -/
inductive Formula where
  | Top
  | Bottom
  | Variable (c : Char)
  | Not (f : Formula)
  | Or (l r : Formula)
  | And (l r : Formula)
  | Implies (l r : Formula)
  | RLImplies (l r : Formula)
  | Equiv (l r : Formula)
deriving DecidableEq, Repr

/-- `Lexemes` from `formula.rs`. -/
inductive Lexemes where
  | Top
  | Bottom
  | Variable (c : Char)
  | Not
  | Or
  | And
  | Implies
  | RLImplies
  | Equiv
  | OpeningParenthesis
  | ClosingParenthesis
deriving DecidableEq, Repr

/-- `Operators` from `formula.rs`. -/
inductive Operators where
  | Not
  | Or
  | And
  | Implies
  | RLImplies
  | Equiv
deriving DecidableEq, Repr

/-- `ParseStackItem` from `formula.rs`. -/
inductive ParseStackItem where
  | Operator (o : Operators)
  | Parenthesis
deriving DecidableEq, Repr

/-- `ParseState` from `formula.rs`. -/
inductive ParseState where
  | BeginingANewGroup
  | Constant
  | Operator
deriving DecidableEq, Repr

/-- `Priority` from `formula.rs`. -/
inductive Priority where
  | Less
  | More
deriving DecidableEq, Repr

/-- `Operators::cmp` from `formula.rs`. -/
def Operators.cmp : Operators → Operators → Priority
  | .Not, .Not => .Less
  | .Not, _ => .More
  | .And, .Not => .Less
  | .And, _ => .More
  | .Or, .Not => .Less
  | .Or, .And => .Less
  | .Or, _ => .More
  | .Implies, .Not => .Less
  | .Implies, .And => .Less
  | .Implies, .Or => .Less
  | .Implies, .Implies => .Less
  | .Implies, _ => .More
  | .RLImplies, .Not => .Less
  | .RLImplies, .And => .Less
  | .RLImplies, .Or => .Less
  | .RLImplies, .Implies => .Less
  | .RLImplies, _ => .More
  | .Equiv, .Equiv => .More
  | .Equiv, _ => .Less

/-- `Operators::is_unary` from `formula.rs`. -/
def Operators.is_unary : Operators → Bool
  | .Not => true
  | _ => false

/-- `TokenizationError` from `formula.rs`. -/
inductive TokenizationError where
  | InvalidCharacter (pos : Nat) (c : Char)
  | UnmatchedClosingParenthesis
  | UnmatchedOpeningParenthesis
  | InputIsTooLong
  | AFormulaIsMissing
  | TooManyFormulas
  | InternalError (n : Nat)
  | EmptyParenthesis
  | InvalidSubFormula
  | OperatorWithoutRightHandside
  | BinaryOperatorWithoutRightHandside
deriving DecidableEq, Repr

/-- `Regime` from `formula.rs`. -/
inductive Regime where
  | Stop
  | Eat
  | ForceEat
  | EndEat
deriving DecidableEq, Repr

/-- `Formula::tokenize` from `formula.rs`, over the character list of the
input (`pos` is the running 0-based character index). -/
def tokenize : Nat → List Char → Except TokenizationError (List Lexemes)
  | _, [] => .ok []
  | pos, c :: rest =>
    let lex : Except TokenizationError Lexemes :=
      if c = '⊤' then .ok .Top
      else if c = '⊥' then .ok .Bottom
      else if ('a' ≤ c ∧ c ≤ 'z') ∨ ('A' ≤ c ∧ c ≤ 'Z') then .ok (.Variable c)
      else if c = '¬' then .ok .Not
      else if c = '∨' then .ok .Or
      else if c = '∧' then .ok .And
      else if c = '⇒' then .ok .Implies
      else if c = '⇐' then .ok .RLImplies
      else if c = '⇔' then .ok .Equiv
      else if c = '(' then .ok .OpeningParenthesis
      else if c = ')' then .ok .ClosingParenthesis
      else .error (.InvalidCharacter pos c)
    match lex with
    | .error e => .error e
    | .ok l =>
      match tokenize (pos + 1) rest with
      | .error e => .error e
      | .ok ls => .ok (l :: ls)

/-- `Formula::build_from_operator` from `formula.rs`: pop one (unary) or two
(binary, rightmost first) formulas and push the built node. -/
def build_from_operator (operator : Operators) (formulas : List Formula) :
    Except TokenizationError (List Formula) :=
  match operator with
  | .Not =>
    match formulas with
    | f :: rest => .ok (.Not f :: rest)
    | [] => .error .AFormulaIsMissing
  | .And =>
    match formulas with
    | right :: left :: rest => .ok (.And left right :: rest)
    | _ => .error .AFormulaIsMissing
  | .Or =>
    match formulas with
    | right :: left :: rest => .ok (.Or left right :: rest)
    | _ => .error .AFormulaIsMissing
  | .Implies =>
    match formulas with
    | right :: left :: rest => .ok (.Implies left right :: rest)
    | _ => .error .AFormulaIsMissing
  | .RLImplies =>
    match formulas with
    | right :: left :: rest => .ok (.RLImplies left right :: rest)
    | _ => .error .AFormulaIsMissing
  | .Equiv =>
    match formulas with
    | right :: left :: rest => .ok (.Equiv left right :: rest)
    | _ => .error .AFormulaIsMissing

/-- `Formula::eat` from `formula.rs`.  The Rust `loop` is modelled by
recursion; every continuing iteration strictly shrinks the operator stack,
which is the termination measure.  `Formula::get_last_two_ops_from_stack`
is inlined as the pattern match on the stack (top at the head): an empty
stack or a `Parenthesis` on top is `Zero`; a lone operator or an operator
directly above a `Parenthesis` is `One`; two operators on top are `Two`.
Wherever the Rust code sets `regime = Stop` and re-enters the loop we
return directly, and the `debug_assert_eq!`/`assert_eq!` pops are the list
deconstructions (a failing pop is `panicked`).  `eat` never changes
`state`, and on success the regime is `Stop`; the returned pair is the
final `(stack, formulas)`. -/
def eat (stack : List ParseStackItem) (state : ParseState) (regime : Regime)
    (formulas : List Formula) :
    DResult TokenizationError (List ParseStackItem × List Formula) :=
  match regime with
  | .Stop => .ok (stack, formulas)
  | .Eat =>
    match stack, state with
    -- ZOT::Zero
    | [], .BeginingANewGroup => .ok (stack, formulas)
    | [], .Operator => .err (.InternalError 0)
    | [], .Constant => .ok (stack, formulas)
    | .Parenthesis :: _, .BeginingANewGroup => .ok (stack, formulas)
    | .Parenthesis :: _, .Operator => .err (.InternalError 0)
    | .Parenthesis :: _, .Constant => .ok (stack, formulas)
    -- ZOT::One
    | [.Operator o], .BeginingANewGroup
    | .Operator o :: .Parenthesis :: _, .BeginingANewGroup =>
      if o.is_unary then .ok (stack, formulas) else .err .TooManyFormulas
    | [.Operator _], .Operator
    | .Operator _ :: .Parenthesis :: _, .Operator => .ok (stack, formulas)
    | [.Operator o], .Constant
    | .Operator o :: .Parenthesis :: _, .Constant =>
      if o.is_unary then
        match build_from_operator o formulas with
        | .error e => .err e
        | .ok formulas1 => .ok (stack.tail, formulas1)
      else .ok (stack, formulas)
    -- ZOT::Two
    | .Operator _ :: .Operator _ :: _, .BeginingANewGroup => .err (.InternalError 1)
    | .Operator right :: .Operator left :: rest, .Constant =>
      match Operators.cmp left right with
      | .Less =>
        match build_from_operator right formulas with
        | .error e => .err e
        | .ok formulas1 => eat (.Operator left :: rest) state .Eat formulas1
      | .More =>
        match formulas with
        | [] => .err (.InternalError 2)
        | rightest :: formulas1 =>
          match build_from_operator left formulas1 with
          | .error e => .err e
          | .ok formulas2 =>
            eat (.Operator right :: rest) state .Eat (rightest :: formulas2)
    | .Operator right :: .Operator left :: rest, .Operator =>
      match Operators.cmp left right with
      | .Less => .ok (stack, formulas)
      | .More =>
        if right.is_unary then .ok (stack, formulas)
        else
          match build_from_operator left formulas with
          | .error e => .err e
          | .ok formulas1 => eat (.Operator right :: rest) state .Eat formulas1
  | .ForceEat =>
    match stack, state with
    -- ZOT::Zero
    | [], .BeginingANewGroup => .err .EmptyParenthesis
    | [], .Operator => .err .OperatorWithoutRightHandside
    | [], .Constant => .panicked -- pops a Parenthesis from an empty stack
    | .Parenthesis :: _, .BeginingANewGroup => .err .EmptyParenthesis
    | .Parenthesis :: _, .Operator => .err .OperatorWithoutRightHandside
    | .Parenthesis :: rest, .Constant => eat rest state .Eat formulas
    -- ZOT::One
    | [.Operator _], .BeginingANewGroup
    | .Operator _ :: .Parenthesis :: _, .BeginingANewGroup =>
      .err .OperatorWithoutRightHandside
    | [.Operator _], .Operator
    | .Operator _ :: .Parenthesis :: _, .Operator =>
      .err .OperatorWithoutRightHandside
    | [.Operator _], .Constant => .panicked -- second pop expects a Parenthesis
    | .Operator op :: .Parenthesis :: rest, .Constant =>
      match build_from_operator op formulas with
      | .error e => .err e
      | .ok formulas1 => eat rest state .Eat formulas1
    -- ZOT::Two
    | .Operator _ :: .Operator _ :: _, .BeginingANewGroup => .err (.InternalError 3)
    | .Operator _ :: .Operator _ :: _, .Operator => .err .OperatorWithoutRightHandside
    | .Operator right :: .Operator left :: rest, .Constant =>
      match Operators.cmp left right with
      | .Less =>
        match build_from_operator right formulas with
        | .error e => .err e
        | .ok formulas1 => eat (.Operator left :: rest) state .Eat formulas1
      | .More =>
        match formulas with
        | [] => .err .AFormulaIsMissing
        | rightest :: formulas1 =>
          match build_from_operator left formulas1 with
          | .error e => .err e
          | .ok formulas2 =>
            eat (.Operator right :: rest) state .ForceEat (rightest :: formulas2)
  | .EndEat =>
    match stack, state with
    -- ZOT::Zero
    | [], .BeginingANewGroup => .err .EmptyParenthesis
    | [], .Operator => .err .OperatorWithoutRightHandside
    | [], .Constant => .ok (stack, formulas)
    | .Parenthesis :: _, .BeginingANewGroup => .err .EmptyParenthesis
    | .Parenthesis :: _, .Operator => .err .OperatorWithoutRightHandside
    | .Parenthesis :: _, .Constant => .ok (stack, formulas)
    -- ZOT::One
    | [.Operator _], .BeginingANewGroup
    | .Operator _ :: .Parenthesis :: _, .BeginingANewGroup => .err .InvalidSubFormula
    | [.Operator _], .Operator
    | .Operator _ :: .Parenthesis :: _, .Operator => .err .OperatorWithoutRightHandside
    | [.Operator op], .Constant =>
      match build_from_operator op formulas with
      | .error e => .err e
      | .ok formulas1 => eat [] state .EndEat formulas1
    | .Operator op :: .Parenthesis :: rest, .Constant =>
      match build_from_operator op formulas with
      | .error e => .err e
      | .ok formulas1 => eat (.Parenthesis :: rest) state .EndEat formulas1
    -- ZOT::Two
    | .Operator _ :: .Operator _ :: _, .BeginingANewGroup => .err (.InternalError 4)
    | .Operator _ :: .Operator _ :: _, .Operator => .err .OperatorWithoutRightHandside
    | .Operator right :: .Operator left :: rest, .Constant =>
      match Operators.cmp left right with
      | .Less =>
        match build_from_operator right formulas with
        | .error e => .err e
        | .ok formulas1 => eat (.Operator left :: rest) state .EndEat formulas1
      | .More =>
        match formulas with
        | [] => .err .AFormulaIsMissing
        | rightest :: formulas1 =>
          match build_from_operator left formulas1 with
          | .error e => .err e
          | .ok formulas2 =>
            eat (.Operator right :: rest) state .EndEat (rightest :: formulas2)
termination_by stack.length
decreasing_by all_goals (simp [List.length_cons]; try omega)

/-- `Formula::read_lexeme` from `formula.rs`: shift one lexeme, returning
the new `(stack, state, regime, formulas)`.  The Rust function always
returns `Ok`. -/
def read_lexeme (l : Lexemes) (state : ParseState) (stack : List ParseStackItem)
    (formulas : List Formula) :
    List ParseStackItem × ParseState × Regime × List Formula :=
  match l with
  | .OpeningParenthesis => (.Parenthesis :: stack, .BeginingANewGroup, .Eat, formulas)
  | .Variable v => (stack, .Constant, .Eat, Formula.Variable v :: formulas)
  | .Top => (stack, .Constant, .Eat, Formula.Top :: formulas)
  | .Bottom => (stack, .Constant, .Eat, Formula.Bottom :: formulas)
  | .ClosingParenthesis => (stack, state, .ForceEat, formulas)
  | .Or => (.Operator .Or :: stack, .Operator, .Eat, formulas)
  | .And => (.Operator .And :: stack, .Operator, .Eat, formulas)
  | .Not => (.Operator .Not :: stack, .Operator, .Eat, formulas)
  | .Implies => (.Operator .Implies :: stack, .Operator, .Eat, formulas)
  | .RLImplies => (.Operator .RLImplies :: stack, .Operator, .Eat, formulas)
  | .Equiv => (.Operator .Equiv :: stack, .Operator, .Eat, formulas)

/-- The per-lexeme loop of `Formula::read`: `read_lexeme` then `eat`, for
each lexeme in turn. -/
def readLoop : List Lexemes → List ParseStackItem → ParseState → List Formula →
    DResult TokenizationError (List ParseStackItem × ParseState × List Formula)
  | [], stack, state, formulas => .ok (stack, state, formulas)
  | l :: rest, stack, state, formulas =>
    match read_lexeme l state stack formulas with
    | (stack1, state1, regime1, formulas1) =>
      match eat stack1 state1 regime1 formulas1 with
      | .err e => .err e
      | .panicked => .panicked
      | .ok (stack2, formulas2) => readLoop rest stack2 state1 formulas2

/-- The body of `Formula::read` up to (and including) the final `EndEat`
call, exposing the final `(stack, state, formulas)` before the
`formulas.pop().unwrap()`. -/
def runParse (input : List Char) :
    DResult TokenizationError (List ParseStackItem × ParseState × List Formula) :=
  match tokenize 0 input with
  | .error e => .err e
  | .ok lexemes =>
    match readLoop lexemes [] .BeginingANewGroup [] with
    | .err e => .err e
    | .panicked => .panicked
    | .ok (stack, state, formulas) =>
      match eat stack state .EndEat formulas with
      | .err e => .err e
      | .panicked => .panicked
      | .ok (stack1, formulas1) => .ok (stack1, state, formulas1)

/-- `Formula::read` from `formula.rs`.  The final
`formulas.pop().unwrap()` panics when the formula stack is empty. -/
def Formula.read (input : String) : DResult TokenizationError Formula :=
  match runParse input.data with
  | .err e => .err e
  | .panicked => .panicked
  | .ok (_, _, formulas) =>
    match formulas with
    | f :: _ => .ok f
    | [] => .panicked

/-- `Statement` from `record.rs`. -/
inductive Statement where
  | Supposons (f : Formula)
  | Donc (f : Formula)
  | Simple (f : Formula)
deriving DecidableEq, Repr

/-- `Statement::get_formula` from `record.rs`. -/
def Statement.get_formula : Statement → Formula
  | .Supposons formula => formula
  | .Donc formula => formula
  | .Simple formula => formula

/-- `Jusitification` from `justif.rs` (the source's spelling). -/
inductive Jusitification where
  | IOrL (pos : Nat) (f : Formula)
  | IOrR (pos : Nat) (f : Formula)
  | EOr (a_to_c b_to_c a_or_b : Nat)
  | IAnd (left right : Nat)
  | EAndL (pos : Nat)
  | EAndR (pos : Nat)
  | Hyp
  | IImpl
  | EImpl (hyp implication : Nat)
  | Efq (pos : Nat)
  | Raa (pos : Nat)
deriving DecidableEq, Repr

/-- `SemanticError` from `proof.rs`. -/
inductive SemanticError where
  | InternalError
  | IncorrectId
  | SuppCtxtOneMoreThenBefore
  | SuppCtxtSameAsBefore
  | SuppCtxtLastIsId
  | SuppJustIsHyp
  | DoncNotFirst
  | DoncCtxtOneLessThenBefore
  | DoncCtxtSameAsBefore
  | DoncHypDifCons
  | DoncHypNotMatching
  | DoncConsNotMatching
  | DoncFormulaIsImplies
  | DoncJustifIsIImpl
  | SimpleIsFirst
  | SimpleCtxtSameAsBefore
  | IOrLPosLesser
  | IOrLIncompatibleCtxt
  | IOrLLeftNotMatching
  | IOrLRightNotMatching
  | IOrLFormulaIsOr
  | IOrRPosLesser
  | IOrRIncompatibleCtxt
  | IOrRLeftNotMatching
  | IOrRRightNotMatching
  | IOrRFormulaIsOr
  | EOrA2CPosLesser
  | EOrB2CPosLesser
  | EOrAOBPosLesser
  | EOrA2CIncompatibleCtxt
  | EOrB2CIncompatibleCtxt
  | EOrAOBIncompatibleCtxt
  | EOrLeftNotMatching
  | EOrRightNotMatching
  | EOrFormulaIsOr
  | EOrAFormulaNotMatching
  | EOrBFormulaNotMatching
  | EOrCFormulaNotMatchingConsequences
  | EOrCFormulaNotMatchingEliminated
  | EOrFormulasNotRightKind
  | IAndLeftPosLesser
  | IAndRightPosLesser
  | IAndLeftIncompatibleCtxt
  | IAndRightIncompatibleCtxt
  | IAndLeftNotMatching
  | IAndRightNotMatching
  | IAndFormulaIsAnd
  | EAndPosLesser
  | EAndIncompatibleCtxt
  | EAndNotMatching
  | EAndFormulaIsAnd
  | HypNotSimple
  | IImplNotSimple
  | EImplHypPosLesser
  | EImplImplPosLesser
  | EImplHypIncompatibleCtxt
  | EImplImplIncompatibleCtxt
  | EImplHypNotMatching
  | EImplImplNotMatching
  | EImplFormulaIsImpl
  | EfqPosLesser
  | EfqIncompatibleCtxt
  | EfqFormulaIsBot
  | RaaPosLesser
  | RaaIncompatibleCtxt
  | RaaFormulaIsNotNot
  | RaaNotMatching
deriving DecidableEq, Repr

/-- `CheckUpResult` from `proof.rs`. -/
inductive CheckUpResult where
  | NotChecked
  | Valid
  | ValidUntil (k : Nat)
  | SemanticErrors (first_error : Nat) (errors : List (Nat × SemanticError))
deriving DecidableEq, Repr

/-- `Record` from `record.rs`. -/
structure Record where
  id : Nat
  ctxt : List Nat
  stmt : Statement
  justif : Jusitification
deriving DecidableEq, Repr

/-- `Proof` from `proof.rs`. -/
structure Proof where
  records : List Record
  valid : CheckUpResult
deriving DecidableEq, Repr

/-- Value used for the (unreachable) out-of-bounds cases of the guarded
Rust indexings `self.records[...]`. -/
def defaultRecord : Record := ⟨0, [], .Simple .Top, .Hyp⟩

/-- `self.records[i]` for indexings that the Rust code has already
bounds-guarded. -/
def getRec (rs : List Record) (i : Nat) : Record := rs.getD i defaultRecord

/-- `check_ctxt_compatibility` from `proof.rs`. -/
def check_ctxt_compatibility (current compatible : List Nat) : Bool :=
  if current.length > compatible.length then false
  else current == compatible.take current.length

/-- The `Statement::Supposons` arm of `Proof::check_single_record`. -/
def checkSupposons (p : Proof) (id : Nat) (r : Record) : Except SemanticError Unit :=
  if id ≠ 0 then
    let ante := getRec p.records (id - 1)
    if r.ctxt.length ≠ ante.ctxt.length + 1 then .error .SuppCtxtOneMoreThenBefore
    else if r.ctxt.take (r.ctxt.length - 1) ≠ ante.ctxt then .error .SuppCtxtSameAsBefore
    else if r.ctxt.getD (r.ctxt.length - 1) 0 ≠ r.id then .error .SuppCtxtLastIsId
    else
      match r.justif with
      | .Hyp => .ok ()
      | _ => .error .SuppJustIsHyp
  else
    if r.ctxt.length ≠ 1 then .error .SuppCtxtOneMoreThenBefore
    else if r.ctxt.getD 0 0 ≠ r.id then .error .SuppCtxtLastIsId
    else
      match r.justif with
      | .Hyp => .ok ()
      | _ => .error .SuppJustIsHyp

/-- The `Statement::Donc` arm of `Proof::check_single_record` (the
justification has already been matched as `IImpl`). -/
def checkDonc (p : Proof) (id : Nat) (r : Record) (conclusion : Formula) :
    Except SemanticError Unit :=
  if id = 0 then .error .DoncNotFirst
  else
    let cons := getRec p.records (id - 1)
    if cons.ctxt.length ≠ r.ctxt.length + 1 then .error .DoncCtxtOneLessThenBefore
    else if cons.ctxt.take r.ctxt.length ≠ r.ctxt then .error .DoncCtxtSameAsBefore
    else
      let hyp_pos := cons.ctxt.getD (cons.ctxt.length - 1) 0
      if hyp_pos + 2 > id then .error .DoncHypDifCons
      else
        let hyp := getRec p.records hyp_pos
        match conclusion with
        | .Implies hyp_formula cons_formula =>
          if hyp_formula ≠ hyp.stmt.get_formula then .error .DoncHypNotMatching
          else if cons_formula ≠ cons.stmt.get_formula then .error .DoncConsNotMatching
          else .ok ()
        | _ => .error .DoncFormulaIsImplies

/-- The `IOrL` arm of the `Statement::Simple` case of
`Proof::check_single_record`. -/
def checkIOrL (p : Proof) (id : Nat) (r : Record) (formula : Formula)
    (right_pos : Nat) (new_left_formula : Formula) : Except SemanticError Unit :=
  if right_pos ≥ id then .error .IOrLPosLesser
  else
    let right_rec := getRec p.records right_pos
    if ¬ check_ctxt_compatibility r.ctxt right_rec.ctxt then .error .IOrLIncompatibleCtxt
    else
      match formula with
      | .Or left_formula right_formula =>
        if left_formula ≠ new_left_formula then .error .IOrLLeftNotMatching
        else if right_formula ≠ right_rec.stmt.get_formula then
          .error .IOrLRightNotMatching
        else .ok ()
      | _ => .error .IOrLFormulaIsOr

/-- The `IOrR` arm of the `Statement::Simple` case of
`Proof::check_single_record` (note the source reports
`IOrRRightNotMatching` for both formula mismatches). -/
def checkIOrR (p : Proof) (id : Nat) (r : Record) (formula : Formula)
    (left_pos : Nat) (new_right_formula : Formula) : Except SemanticError Unit :=
  if left_pos ≥ id then .error .IOrRPosLesser
  else
    let left_rec := getRec p.records left_pos
    if ¬ check_ctxt_compatibility r.ctxt left_rec.ctxt then .error .IOrRIncompatibleCtxt
    else
      match formula with
      | .Or left_formula right_formula =>
        if right_formula ≠ new_right_formula then .error .IOrRRightNotMatching
        else if left_formula ≠ left_rec.stmt.get_formula then
          .error .IOrRRightNotMatching
        else .ok ()
      | _ => .error .IOrRFormulaIsOr

/-- The `EOr` arm of the `Statement::Simple` case of
`Proof::check_single_record`. -/
def checkEOr (p : Proof) (id : Nat) (r : Record) (formula : Formula)
    (a_to_c b_to_c a_or_b : Nat) : Except SemanticError Unit :=
  if a_to_c ≥ id then .error .EOrA2CPosLesser
  else if b_to_c ≥ id then .error .EOrB2CPosLesser
  else if a_or_b ≥ id then .error .EOrAOBPosLesser
  else
    let atc := getRec p.records a_to_c
    let btc := getRec p.records b_to_c
    let aob := getRec p.records a_or_b
    if ¬ check_ctxt_compatibility r.ctxt atc.ctxt then .error .EOrA2CIncompatibleCtxt
    else if ¬ check_ctxt_compatibility r.ctxt btc.ctxt then .error .EOrB2CIncompatibleCtxt
    else if ¬ check_ctxt_compatibility r.ctxt aob.ctxt then .error .EOrAOBIncompatibleCtxt
    else
      match atc.stmt.get_formula, btc.stmt.get_formula, aob.stmt.get_formula with
      | .Implies atc_a atc_c, .Implies btc_b btc_c, .Or aob_a aob_b =>
        if aob_a ≠ atc_a then .error .EOrAFormulaNotMatching
        else if aob_b ≠ btc_b then .error .EOrBFormulaNotMatching
        else if atc_c ≠ btc_c then .error .EOrCFormulaNotMatchingConsequences
        else if atc_c ≠ formula then .error .EOrCFormulaNotMatchingEliminated
        else .ok ()
      | _, _, _ => .error .EOrFormulasNotRightKind

/-- The `IAnd` arm of the `Statement::Simple` case of
`Proof::check_single_record`. -/
def checkIAnd (p : Proof) (id : Nat) (r : Record) (formula : Formula)
    (left right : Nat) : Except SemanticError Unit :=
  if left ≥ id then .error .IAndLeftPosLesser
  else if right ≥ id then .error .IAndRightPosLesser
  else
    let left_rec := getRec p.records left
    let right_rec := getRec p.records right
    if ¬ check_ctxt_compatibility r.ctxt left_rec.ctxt then .error .IAndLeftIncompatibleCtxt
    else if ¬ check_ctxt_compatibility r.ctxt right_rec.ctxt then
      .error .IAndRightIncompatibleCtxt
    else
      match formula with
      | .And left_formula right_formula =>
        if left_formula ≠ left_rec.stmt.get_formula then .error .IAndLeftNotMatching
        else if right_formula ≠ right_rec.stmt.get_formula then
          .error .IAndRightNotMatching
        else .ok ()
      | _ => .error .IAndFormulaIsAnd

/-- The `EAndL` arm of the `Statement::Simple` case of
`Proof::check_single_record`. -/
def checkEAndL (p : Proof) (id : Nat) (r : Record) (formula : Formula)
    (and_pos : Nat) : Except SemanticError Unit :=
  if and_pos ≥ id then .error .EAndPosLesser
  else
    let andr := getRec p.records and_pos
    if ¬ check_ctxt_compatibility r.ctxt andr.ctxt then .error .EAndIncompatibleCtxt
    else
      match andr.stmt.get_formula with
      | .And left_formula _ =>
        if left_formula ≠ formula then .error .EAndNotMatching else .ok ()
      | _ => .error .EAndFormulaIsAnd

/-- The `EAndR` arm of the `Statement::Simple` case of
`Proof::check_single_record`. -/
def checkEAndR (p : Proof) (id : Nat) (r : Record) (formula : Formula)
    (and_pos : Nat) : Except SemanticError Unit :=
  if and_pos ≥ id then .error .EAndPosLesser
  else
    let andr := getRec p.records and_pos
    if ¬ check_ctxt_compatibility r.ctxt andr.ctxt then .error .EAndIncompatibleCtxt
    else
      match andr.stmt.get_formula with
      | .And _ right_formula =>
        if right_formula ≠ formula then .error .EAndNotMatching else .ok ()
      | _ => .error .EAndFormulaIsAnd

/-- The `EImpl` arm of the `Statement::Simple` case of
`Proof::check_single_record`. -/
def checkEImpl (p : Proof) (id : Nat) (r : Record) (formula : Formula)
    (hyp implication : Nat) : Except SemanticError Unit :=
  if hyp ≥ id then .error .EImplHypPosLesser
  else if implication ≥ id then .error .EImplImplPosLesser
  else
    let hyp_rec := getRec p.records hyp
    let impl_rec := getRec p.records implication
    if ¬ check_ctxt_compatibility r.ctxt hyp_rec.ctxt then .error .EImplHypIncompatibleCtxt
    else if ¬ check_ctxt_compatibility r.ctxt impl_rec.ctxt then
      .error .EImplImplIncompatibleCtxt
    else
      match impl_rec.stmt.get_formula with
      | .Implies i_hyp i_cons =>
        if i_hyp ≠ hyp_rec.stmt.get_formula then .error .EImplHypNotMatching
        else if i_cons ≠ formula then .error .EImplImplNotMatching
        else .ok ()
      | _ => .error .EImplFormulaIsImpl

/-- The `Efq` arm of the `Statement::Simple` case of
`Proof::check_single_record`. -/
def checkEfq (p : Proof) (id : Nat) (r : Record) (bot_pos : Nat) :
    Except SemanticError Unit :=
  if bot_pos ≥ id then .error .EfqPosLesser
  else
    let bot := getRec p.records bot_pos
    if ¬ check_ctxt_compatibility r.ctxt bot.ctxt then .error .EfqIncompatibleCtxt
    else
      match bot.stmt.get_formula with
      | .Bottom => .ok ()
      | _ => .error .EfqFormulaIsBot

/-- The `Raa` arm of the `Statement::Simple` case of
`Proof::check_single_record`. -/
def checkRaa (p : Proof) (id : Nat) (r : Record) (formula : Formula)
    (nn_pos : Nat) : Except SemanticError Unit :=
  if nn_pos ≥ id then .error .RaaPosLesser
  else
    let nn := getRec p.records nn_pos
    if ¬ check_ctxt_compatibility r.ctxt nn.ctxt then .error .RaaIncompatibleCtxt
    else
      match nn.stmt.get_formula with
      | .Not (.Not nn_formula) =>
        if nn_formula ≠ formula then .error .RaaNotMatching else .ok ()
      | .Not _ => .error .RaaFormulaIsNotNot
      | _ => .error .RaaFormulaIsNotNot

/-- The `Statement::Simple` arm of `Proof::check_single_record`, after
the first-record and same-context checks: dispatch on the
justification. -/
def checkSimpleJustif (p : Proof) (id : Nat) (r : Record) (formula : Formula) :
    Except SemanticError Unit :=
  match r.justif with
  | .IOrL right_pos new_left_formula => checkIOrL p id r formula right_pos new_left_formula
  | .IOrR left_pos new_right_formula => checkIOrR p id r formula left_pos new_right_formula
  | .EOr a_to_c b_to_c a_or_b => checkEOr p id r formula a_to_c b_to_c a_or_b
  | .IAnd left right => checkIAnd p id r formula left right
  | .EAndL and_pos => checkEAndL p id r formula and_pos
  | .EAndR and_pos => checkEAndR p id r formula and_pos
  | .Hyp => .error .HypNotSimple
  | .IImpl => .error .IImplNotSimple
  | .EImpl hyp implication => checkEImpl p id r formula hyp implication
  | .Efq bot_pos => checkEfq p id r bot_pos
  | .Raa nn_pos => checkRaa p id r formula nn_pos

/-- `Proof::check_single_record` from `proof.rs`.  Rust's early
`return Err(..)` is the `then` branch of each `if`; the guarded slice and
index operations become `List.take`/`List.getD`; each `match` arm is the
correspondingly named function above. -/
def check_single_record (p : Proof) (id : Nat) : Except SemanticError Unit :=
  match p.records.get? id with
  | none => .error .InternalError
  | some r =>
    if r.id ≠ id then .error .IncorrectId
    else
      match r.stmt with
      | .Supposons _ => checkSupposons p id r
      | .Donc conclusion =>
        match r.justif with
        | .IImpl => checkDonc p id r conclusion
        | _ => .error .DoncJustifIsIImpl
      | .Simple formula =>
        if id = 0 then .error .SimpleIsFirst
        else if r.ctxt ≠ (getRec p.records (id - 1)).ctxt then
          .error .SimpleCtxtSameAsBefore
        else checkSimpleJustif p id r formula

/-- One iteration of the `for id in 0..=id` loop body of
`Proof::check_up_to`, acting on the accumulator `(erred, until, errors)`. -/
def checkUpStep (p : Proof) (acc : Bool × Nat × List (Nat × SemanticError)) (i : Nat) :
    Bool × Nat × List (Nat × SemanticError) :=
  match check_single_record p i with
  | .ok _ => acc
  | .error e =>
    (true, if acc.1 then acc.2.1 else i, acc.2.2 ++ [(i, e)])

/-- `Proof::check_up_to` from `proof.rs`.  The Rust method mutates
`self.valid` and returns `Result<(), ()>`; here the new `Proof` is
returned together with `true` for `Ok` (`(p, false)` is `Err` with the
state untouched). -/
def Proof.check_up_to (p : Proof) (id : Nat) : Proof × Bool :=
  if id ≥ p.records.length then (p, false)
  else
    let acc := (List.range (id + 1)).foldl (checkUpStep p) (false, 0, [])
    let newValid :=
      if acc.1 then CheckUpResult.SemanticErrors acc.2.1 acc.2.2
      else if id + 1 = p.records.length then CheckUpResult.Valid
      else CheckUpResult.ValidUntil (id + 1)
    ({ p with valid := newValid }, true)

/-- `Proof::check` from `proof.rs`. -/
def Proof.check (p : Proof) : Proof × Bool :=
  if p.records.isEmpty then (p, true)
  else p.check_up_to (p.records.length - 1)

/-- `ReadError` from `justif.rs`.  The `ParseIntError` payloads carry no
information the checker inspects and are dropped; the wrapped
`TokenizationError`s are kept. -/
inductive JReadError where
  | InputEmpty
  | UnknownRule
  | InputTooLarge
  | Missing_In_IOrL_LeftPos
  | Invalid_In_IOrL_LeftPos
  | Missing_In_IOrL_Formula
  | Invalid_In_IOrL_Formula (e : TokenizationError)
  | Missing_In_IOrR_RightPos
  | Invalid_In_IOrR_RightPos
  | Missing_In_IOrR_Formula
  | Invalid_In_IOrR_Formula (e : TokenizationError)
  | Missing_In_EOr_A_to_C
  | Invalid_In_EOr_A_to_C
  | Missing_In_EOr_B_to_C
  | Invalid_In_EOr_B_to_C
  | Missing_In_EOr_A_or_B
  | Invalid_In_EOr_A_or_B
  | Missing_In_IAnd_Left
  | Invalid_In_IAnd_Left
  | Missing_In_IAnd_Right
  | Invalid_In_IAnd_Right
  | Missing_In_EAndL_Reference
  | Invalid_In_EAndL_Reference
  | Missing_In_EAndR_Reference
  | Invalid_In_EAndR_Reference
  | Missing_In_IImpl_Hyp
  | Invalid_In_IImpl_Hyp
  | Missing_In_IImpl_Implication
  | Invalid_In_IImpl_Implication
  | Missing_In_Efq_Reference
  | Invalid_In_Efq_Reference
  | Missing_In_Raa_Reference
  | Invalid_In_Raa_Reference
deriving DecidableEq, Repr

/-- Rust `str::split(sep)` on a character list: like the Rust iterator it
always yields at least one (possibly empty) piece. -/
def splitCh (sep : Char) : List Char → List (List Char)
  | [] => [[]]
  | c :: rest =>
    match splitCh sep rest with
    | [] => [[]]
    | g :: gs => if c = sep then [] :: g :: gs else (c :: g) :: gs

/-- Rust `str::parse::<usize>()` on a character list (decimal digits
only; the empty string fails). -/
def parse_usize (s : List Char) : Option Nat :=
  if s.isEmpty then none
  else if s.all Char.isDigit then
    some (s.foldl (fun n c => n * 10 + (c.toNat - '0'.toNat)) 0)
  else none

/-- The final `s.next()` arity check shared by every rule of
`Jusitification::read`: a token beyond the rule's arity is
`InputTooLarge`, otherwise the parsed justification is returned. -/
def jReadFinish (args : List (List Char)) (arity : Nat) (j : Jusitification) :
    DResult JReadError Jusitification :=
  match args.get? arity with
  | some _ => .err .InputTooLarge
  | none => .ok j

/-- `Formula::read` on a character list (helper for the record parser). -/
def formulaReadChars (input : List Char) : DResult TokenizationError Formula :=
  match runParse input with
  | .err e => .err e
  | .panicked => .panicked
  | .ok (_, _, formulas) =>
    match formulas with
    | f :: _ => .ok f
    | [] => .panicked

/-- The `"IOrL"` arm of `Jusitification::read`. -/
def jReadIOrL (args : List (List Char)) : DResult JReadError Jusitification :=
  match args.get? 0 with
  | none => .err .Missing_In_IOrL_LeftPos
  | some a0 =>
    match parse_usize a0 with
    | none => .err .Invalid_In_IOrL_LeftPos
    | some left_pos =>
      match args.get? 1 with
      | none => .err .Missing_In_IOrL_Formula
      | some a1 =>
        match formulaReadChars a1 with
        | .err e => .err (.Invalid_In_IOrL_Formula e)
        | .panicked => .panicked
        | .ok f => jReadFinish args 2 (.IOrL left_pos f)

/-- The `"IOrR"` arm of `Jusitification::read`. -/
def jReadIOrR (args : List (List Char)) : DResult JReadError Jusitification :=
  match args.get? 0 with
  | none => .err .Missing_In_IOrR_RightPos
  | some a0 =>
    match parse_usize a0 with
    | none => .err .Invalid_In_IOrR_RightPos
    | some right_pos =>
      match args.get? 1 with
      | none => .err .Missing_In_IOrR_Formula
      | some a1 =>
        match formulaReadChars a1 with
        | .err e => .err (.Invalid_In_IOrR_Formula e)
        | .panicked => .panicked
        | .ok f => jReadFinish args 2 (.IOrR right_pos f)

/-- The `"EOr"` arm of `Jusitification::read`. -/
def jReadEOr (args : List (List Char)) : DResult JReadError Jusitification :=
  match args.get? 0 with
  | none => .err .Missing_In_EOr_A_to_C
  | some a0 =>
    match parse_usize a0 with
    | none => .err .Invalid_In_EOr_A_to_C
    | some a_to_c =>
      match args.get? 1 with
      | none => .err .Missing_In_EOr_B_to_C
      | some a1 =>
        match parse_usize a1 with
        | none => .err .Invalid_In_EOr_B_to_C
        | some b_to_c =>
          match args.get? 2 with
          | none => .err .Missing_In_EOr_A_or_B
          | some a2 =>
            match parse_usize a2 with
            | none => .err .Invalid_In_EOr_A_or_B
            | some a_or_b => jReadFinish args 3 (.EOr a_to_c b_to_c a_or_b)

/-- The `"IAnd"` arm of `Jusitification::read`. -/
def jReadIAnd (args : List (List Char)) : DResult JReadError Jusitification :=
  match args.get? 0 with
  | none => .err .Missing_In_IAnd_Left
  | some a0 =>
    match parse_usize a0 with
    | none => .err .Invalid_In_IAnd_Left
    | some left =>
      match args.get? 1 with
      | none => .err .Missing_In_IAnd_Right
      | some a1 =>
        match parse_usize a1 with
        | none => .err .Invalid_In_IAnd_Right
        | some right => jReadFinish args 2 (.IAnd left right)

/-- The `"EAndL"` arm of `Jusitification::read`. -/
def jReadEAndL (args : List (List Char)) : DResult JReadError Jusitification :=
  match args.get? 0 with
  | none => .err .Missing_In_EAndL_Reference
  | some a0 =>
    match parse_usize a0 with
    | none => .err .Invalid_In_EAndL_Reference
    | some reference => jReadFinish args 1 (.EAndL reference)

/-- The `"EAndR"` arm of `Jusitification::read`. -/
def jReadEAndR (args : List (List Char)) : DResult JReadError Jusitification :=
  match args.get? 0 with
  | none => .err .Missing_In_EAndR_Reference
  | some a0 =>
    match parse_usize a0 with
    | none => .err .Invalid_In_EAndR_Reference
    | some reference => jReadFinish args 1 (.EAndR reference)

/-- The `"EImpl"` arm of `Jusitification::read` (its errors are the
`IImpl`-named ones of the source). -/
def jReadEImpl (args : List (List Char)) : DResult JReadError Jusitification :=
  match args.get? 0 with
  | none => .err .Missing_In_IImpl_Hyp
  | some a0 =>
    match parse_usize a0 with
    | none => .err .Invalid_In_IImpl_Hyp
    | some hyp =>
      match args.get? 1 with
      | none => .err .Missing_In_IImpl_Implication
      | some a1 =>
        match parse_usize a1 with
        | none => .err .Invalid_In_IImpl_Implication
        | some implication => jReadFinish args 2 (.EImpl hyp implication)

/-- The `"Efq"` arm of `Jusitification::read`. -/
def jReadEfq (args : List (List Char)) : DResult JReadError Jusitification :=
  match args.get? 0 with
  | none => .err .Missing_In_Efq_Reference
  | some a0 =>
    match parse_usize a0 with
    | none => .err .Invalid_In_Efq_Reference
    | some reference => jReadFinish args 1 (.Efq reference)

/-- The `"Raa"` arm of `Jusitification::read`. -/
def jReadRaa (args : List (List Char)) : DResult JReadError Jusitification :=
  match args.get? 0 with
  | none => .err .Missing_In_Raa_Reference
  | some a0 =>
    match parse_usize a0 with
    | none => .err .Invalid_In_Raa_Reference
    | some reference => jReadFinish args 1 (.Raa reference)

/-- `Jusitification::read` from `justif.rs`, over the character list of
the input.  The head token picks the rule, the following tokens are its
positional arguments. -/
def jusitificationReadChars (input : List Char) : DResult JReadError Jusitification :=
  match splitCh ' ' input with
  | [] => .err .InputEmpty
  | rule :: args =>
    if rule = "IOrL".data then jReadIOrL args
    else if rule = "IOrR".data then jReadIOrR args
    else if rule = "EOr".data then jReadEOr args
    else if rule = "IAnd".data then jReadIAnd args
    else if rule = "EAndL".data then jReadEAndL args
    else if rule = "EAndR".data then jReadEAndR args
    else if rule = "Hyp".data then jReadFinish args 0 .Hyp
    else if rule = "IImpl".data then jReadFinish args 0 .IImpl
    else if rule = "EImpl".data then jReadEImpl args
    else if rule = "Efq".data then jReadEfq args
    else if rule = "Raa".data then jReadRaa args
    else .err .UnknownRule

/-- `Jusitification::read` from `justif.rs`. -/
def Jusitification.read (input : String) : DResult JReadError Jusitification :=
  jusitificationReadChars input.data

/-- `RecordError` from `record.rs`. -/
inductive RecordError where
  | MissingField
  | InvalidId
  | InvalidCtxt
  | TooMuch
  | InvalidFormula (e : TokenizationError)
  | InvalidJustif (e : JReadError)
deriving DecidableEq, Repr

/-- `Record::read_id` from `record.rs`. -/
def Record.read_id (input : List Char) : Except RecordError Nat :=
  match parse_usize input with
  | some n => .ok n
  | none => .error .InvalidId

/-- The `collect::<Result<Vec<usize>, _>>` of `Record::read_ctxt`: parse
each piece, stopping at the first failure. -/
def readCtxtList : List (List Char) → Except RecordError (List Nat)
  | [] => .ok []
  | slc :: rest =>
    match parse_usize slc with
    | none => .error .InvalidCtxt
    | some n =>
      match readCtxtList rest with
      | .error e => .error e
      | .ok ns => .ok (n :: ns)

/-- `Record::read_ctxt` from `record.rs`: comma-separated integers, empty
segments skipped. -/
def Record.read_ctxt (input : List Char) : Except RecordError (List Nat) :=
  readCtxtList ((splitCh ',' input).filter (fun slc => ¬ slc.isEmpty))

/-- Rust `str::strip_prefix` on character lists. -/
def stripPfx : List Char → List Char → Option (List Char)
  | [], s => some s
  | p :: ps, c :: cs => if c = p then stripPfx ps cs else none
  | _ :: _, [] => none

/-- `Record::read_stmt` from `record.rs`: `Donc ` and `Supposons `
prefixes pick the variant, anything else is `Simple`. -/
def Record.read_stmt (input : List Char) : DResult RecordError Statement :=
  match stripPfx "Donc ".data input with
  | some rest =>
    match formulaReadChars rest with
    | .err e => .err (.InvalidFormula e)
    | .panicked => .panicked
    | .ok f => .ok (.Donc f)
  | none =>
    match stripPfx "Supposons ".data input with
    | some rest =>
      match formulaReadChars rest with
      | .err e => .err (.InvalidFormula e)
      | .panicked => .panicked
      | .ok f => .ok (.Supposons f)
    | none =>
      match formulaReadChars input with
      | .err e => .err (.InvalidFormula e)
      | .panicked => .panicked
      | .ok f => .ok (.Simple f)

/-- `Record::read_record` from `record.rs`, over the character list of the
line: four semicolon-separated fields, each parsed in turn, and a fifth
field is `TooMuch`. -/
def readRecordChars (input : List Char) : DResult RecordError Record :=
  match splitCh ';' input with
  | [] => .err .MissingField
  | f0 :: rest0 =>
    match Record.read_id f0 with
    | .error e => .err e
    | .ok id =>
      match rest0 with
      | [] => .err .MissingField
      | f1 :: rest1 =>
        match Record.read_ctxt f1 with
        | .error e => .err e
        | .ok ctxt =>
          match rest1 with
          | [] => .err .MissingField
          | f2 :: rest2 =>
            match Record.read_stmt f2 with
            | .err e => .err e
            | .panicked => .panicked
            | .ok stmt =>
              match rest2 with
              | [] => .err .MissingField
              | f3 :: rest3 =>
                match jusitificationReadChars f3 with
                | .err e => .err (.InvalidJustif e)
                | .panicked => .panicked
                | .ok justif =>
                  match rest3 with
                  | [] => .ok ⟨id, ctxt, stmt, justif⟩
                  | _ => .err .TooMuch

/-- `Record::read_record` from `record.rs`. -/
def Record.read_record (input : String) : DResult RecordError Record :=
  readRecordChars input.data

/-- `ReadError` from `proof.rs`. -/
structure ProofReadError where
  stmt : Nat
  content : RecordError
deriving DecidableEq, Repr

/-- The record-collecting loop of `Proof::read_proof` (`stmt_no` is the
running line number). -/
def readProofRecords : Nat → List (List Char) → DResult ProofReadError (List Record)
  | _, [] => .ok []
  | stmt_no, line :: rest =>
    match readRecordChars line with
    | .err e => .err ⟨stmt_no, e⟩
    | .panicked => .panicked
    | .ok r =>
      match readProofRecords (stmt_no + 1) rest with
      | .err e => .err e
      | .panicked => .panicked
      | .ok rs => .ok (r :: rs)

/-- `Proof::read_proof` from `proof.rs`: one record per `\n`-separated
line, initial state `NotChecked`. -/
def Proof.read_proof (input : String) : DResult ProofReadError Proof :=
  match readProofRecords 0 (splitCh '\n' input.data) with
  | .err e => .err e
  | .panicked => .panicked
  | .ok rs => .ok ⟨rs, .NotChecked⟩

/-! ## Helper lemmas and concrete data -/

/-- `splitCh` always yields at least one (possibly empty) piece, like the
Rust `str::split` iterator. -/
theorem splitCh_ne_nil (sep : Char) (s : List Char) : splitCh sep s ≠ [] := by
  cases s with
  | nil => simp [splitCh]
  | cons c rest =>
    simp only [splitCh]
    split
    · simp
    · split <;> simp

/-- `true` exactly on the `InputEmpty` parse error. -/
def isInputEmptyErr : DResult JReadError Jusitification → Bool
  | .err .InputEmpty => true
  | _ => false

/-- The shared arity check never reports an empty input. -/
theorem isInputEmptyErr_jReadFinish (args : List (List Char)) (arity : Nat)
    (j : Jusitification) : isInputEmptyErr (jReadFinish args arity j) = false := by
  unfold jReadFinish
  split <;> rfl

/-- The records parsed from the three lines of spec scenario 3. -/
def c2Records : List Record :=
  [⟨0, [0], .Supposons (.Variable 'a'), .Hyp⟩,
   ⟨1, [0], .Simple (.Variable 'a'), .Hyp⟩,
   ⟨2, [], .Donc (.Implies (.Variable 'a') (.Variable 'a')), .IImpl⟩]

/-- Parsing the three lines of spec scenario 3 yields `c2Records`. -/
theorem c2_parse :
    Proof.read_proof "0;0;Supposons a;Hyp\n1;0;a;Hyp\n2;;Donc a⇒a;IImpl" =
      .ok ⟨c2Records, .NotChecked⟩ := by
  simp [Proof.read_proof, readProofRecords, readRecordChars,
    splitCh, Record.read_id, parse_usize, Record.read_ctxt, readCtxtList,
    Record.read_stmt, stripPfx, formulaReadChars, runParse, tokenize, readLoop,
    read_lexeme, eat, build_from_operator, Operators.cmp, Operators.is_unary,
    jusitificationReadChars, jReadFinish, c2Records]

/-- The verdict of `check()` on a proof parsed from `s` (`none` when the
text does not parse). -/
def checkVerdictOfParse (s : String) : Option CheckUpResult :=
  match Proof.read_proof s with
  | .ok p => some ((p.check).1).valid
  | _ => none

/-! ## Claims -/

/-- C6: the four precedence-law parses of spec property P3: `a∧b∨c` is
`Or(And(a,b),c)`; `m⇒n⇒p` is `Implies(m, Implies(n,p))`; `j⇔k⇔l` is
`Equiv(Equiv(j,k),l)`; `¬¬a` is `Not(Not(a))`. -/
theorem claim6_precedence_laws :
    Formula.read "a∧b∨c" =
      .ok (.Or (.And (.Variable 'a') (.Variable 'b')) (.Variable 'c')) ∧
    Formula.read "m⇒n⇒p" =
      .ok (.Implies (.Variable 'm') (.Implies (.Variable 'n') (.Variable 'p'))) ∧
    Formula.read "j⇔k⇔l" =
      .ok (.Equiv (.Equiv (.Variable 'j') (.Variable 'k')) (.Variable 'l')) ∧
    Formula.read "¬¬a" = .ok (.Not (.Not (.Variable 'a'))) := by
  refine ⟨?_, ?_, ?_, ?_⟩ <;>
    simp [Formula.read, runParse, tokenize, readLoop, read_lexeme, eat,
      build_from_operator, Operators.cmp, Operators.is_unary]

/-- C8 counterexample: `Formula::read` on the empty string does fail, but
with `EmptyParenthesis`, not with `AFormulaIsMissing` as the claim
states. -/
theorem claim8_cex :
    Formula.read "" = .err .EmptyParenthesis ∧
    Formula.read "" ≠ .err .AFormulaIsMissing := by
  have h : Formula.read "" = .err .EmptyParenthesis := by
    simp [Formula.read, runParse, tokenize, readLoop, eat]
  exact ⟨h, by rw [h]; simp⟩

/-- C8 (amended): `Formula::read` applied to the empty string fails with
the error `EmptyParenthesis` (the `EndEat`/`Zero`/`BeginingANewGroup`
case of the reducer). -/
theorem claim8_empty_input_error :
    Formula.read "" = .err .EmptyParenthesis := by
  simp [Formula.read, runParse, tokenize, readLoop, eat]

/-- C5: on `a∧(b` the parser *succeeds* (returning `b`) while the final
operator stack still holds the unmatched parenthesis and the `∧`, and the
formula stack still holds two formulas — the completed sub-formula `a` is
silently discarded, contradicting the spec's success guarantee
(`UnmatchedOpeningParenthesis` is declared in the source but never
returned). -/
theorem claim5_leftover_stacks_on_success :
    runParse "a∧(b".data =
      .ok ([.Parenthesis, .Operator .And], .Constant,
        [.Variable 'b', .Variable 'a']) ∧
    Formula.read "a∧(b" = .ok (.Variable 'b') := by
  constructor <;>
    simp [Formula.read, runParse, tokenize, readLoop, read_lexeme, eat,
      build_from_operator, Operators.cmp, Operators.is_unary]

/-- C9: on `a∧b)` the parser panics: the `ForceEat` handling of `)` pops
the lone `∧` and then asserts that an opening parenthesis is below it on
the empty stack (`assert_eq!(Some(Parenthesis), stack.pop())`), so
`Formula::read` neither returns `Ok` nor `Err`, contradicting parser
totality (P1). -/
theorem claim9_closing_paren_panic :
    Formula.read "a∧b)" = .panicked := by
  simp [Formula.read, runParse, tokenize, readLoop, read_lexeme, eat,
    build_from_operator, Operators.cmp, Operators.is_unary]

/-- C2 counterexample: on the three-record proof of spec scenario 3 the
checker does *not* return `Valid`: record 1 is a `Simple` statement
justified by `Hyp`, which the checker always rejects
(`HypNotSimple`). -/
theorem claim2_cex :
    checkVerdictOfParse "0;0;Supposons a;Hyp\n1;0;a;Hyp\n2;;Donc a⇒a;IImpl" =
      some (.SemanticErrors 1 [(1, .HypNotSimple)]) ∧
    some (CheckUpResult.SemanticErrors 1 [(1, .HypNotSimple)]) ≠
      some CheckUpResult.Valid := by
  refine ⟨?_, by simp⟩
  rw [checkVerdictOfParse, c2_parse]
  decide

/-- C2 (amended): `check()` on the proof parsed from the three lines of
spec scenario 3 ends in `SemanticErrors` with `first_error = 1` and
`errors = [(1, HypNotSimple)]` — records 0 and 2 pass, record 1 fails. -/
theorem claim2_scenario3_verdict :
    checkVerdictOfParse "0;0;Supposons a;Hyp\n1;0;a;Hyp\n2;;Donc a⇒a;IImpl" =
      some (.SemanticErrors 1 [(1, .HypNotSimple)]) := by
  rw [checkVerdictOfParse, c2_parse]
  decide

/-- No rule arm of `Jusitification::read` reports an empty input. -/
theorem isInputEmptyErr_jReadIOrL (args : List (List Char)) :
    isInputEmptyErr (jReadIOrL args) = false := by
  unfold jReadIOrL
  repeat' split
  all_goals first | rfl | apply isInputEmptyErr_jReadFinish

theorem isInputEmptyErr_jReadIOrR (args : List (List Char)) :
    isInputEmptyErr (jReadIOrR args) = false := by
  unfold jReadIOrR
  repeat' split
  all_goals first | rfl | apply isInputEmptyErr_jReadFinish

theorem isInputEmptyErr_jReadEOr (args : List (List Char)) :
    isInputEmptyErr (jReadEOr args) = false := by
  unfold jReadEOr
  repeat' split
  all_goals first | rfl | apply isInputEmptyErr_jReadFinish

theorem isInputEmptyErr_jReadIAnd (args : List (List Char)) :
    isInputEmptyErr (jReadIAnd args) = false := by
  unfold jReadIAnd
  repeat' split
  all_goals first | rfl | apply isInputEmptyErr_jReadFinish

theorem isInputEmptyErr_jReadEAndL (args : List (List Char)) :
    isInputEmptyErr (jReadEAndL args) = false := by
  unfold jReadEAndL
  repeat' split
  all_goals first | rfl | apply isInputEmptyErr_jReadFinish

theorem isInputEmptyErr_jReadEAndR (args : List (List Char)) :
    isInputEmptyErr (jReadEAndR args) = false := by
  unfold jReadEAndR
  repeat' split
  all_goals first | rfl | apply isInputEmptyErr_jReadFinish

theorem isInputEmptyErr_jReadEImpl (args : List (List Char)) :
    isInputEmptyErr (jReadEImpl args) = false := by
  unfold jReadEImpl
  repeat' split
  all_goals first | rfl | apply isInputEmptyErr_jReadFinish

theorem isInputEmptyErr_jReadEfq (args : List (List Char)) :
    isInputEmptyErr (jReadEfq args) = false := by
  unfold jReadEfq
  repeat' split
  all_goals first | rfl | apply isInputEmptyErr_jReadFinish

theorem isInputEmptyErr_jReadRaa (args : List (List Char)) :
    isInputEmptyErr (jReadRaa args) = false := by
  unfold jReadRaa
  repeat' split
  all_goals first | rfl | apply isInputEmptyErr_jReadFinish

set_option maxHeartbeats 1600000 in
/-- C10: `Jusitification::read` never returns `InputEmpty`: splitting on
spaces always yields a first (possibly empty) token, and every rule
branch produces a different error or a justification. -/
theorem claim10_input_empty_unreachable (input : String) :
    isInputEmptyErr (Jusitification.read input) = false := by
  unfold Jusitification.read jusitificationReadChars
  rcases h : splitCh ' ' input.data with _ | ⟨rule, args⟩
  · exact absurd h (splitCh_ne_nil ' ' input.data)
  · repeat' split
    all_goals first
      | rfl
      | apply isInputEmptyErr_jReadIOrL
      | apply isInputEmptyErr_jReadIOrR
      | apply isInputEmptyErr_jReadEOr
      | apply isInputEmptyErr_jReadIAnd
      | apply isInputEmptyErr_jReadEAndL
      | apply isInputEmptyErr_jReadEAndR
      | apply isInputEmptyErr_jReadEImpl
      | apply isInputEmptyErr_jReadEfq
      | apply isInputEmptyErr_jReadRaa
      | apply isInputEmptyErr_jReadFinish
      | (rename_i heq; exact absurd heq (List.cons_ne_nil _ _))

/-- The record positions a justification cites (the indexes the checker
looks up and tests for context compatibility in each rule branch). -/
def citedPositions : Jusitification → List Nat
  | .IOrL pos _ => [pos]
  | .IOrR pos _ => [pos]
  | .EOr a_to_c b_to_c a_or_b => [a_to_c, b_to_c, a_or_b]
  | .IAnd left right => [left, right]
  | .EAndL pos => [pos]
  | .EAndR pos => [pos]
  | .Hyp => []
  | .IImpl => []
  | .EImpl hyp implication => [hyp, implication]
  | .Efq pos => [pos]
  | .Raa pos => [pos]

theorem checkSupposons_justif (p : Proof) (id : Nat) (r : Record)
    (h : checkSupposons p id r = .ok ()) : r.justif = .Hyp := by
  unfold checkSupposons at h
  simp only [ne_eq] at h
  repeat' split at h
  all_goals simp_all

theorem checkIOrL_compat (p : Proof) (id : Nat) (r : Record) (formula : Formula)
    (right_pos : Nat) (nlf : Formula)
    (h : checkIOrL p id r formula right_pos nlf = .ok ()) :
    check_ctxt_compatibility r.ctxt (getRec p.records right_pos).ctxt = true := by
  unfold checkIOrL at h
  simp only [ne_eq] at h
  repeat' split at h
  all_goals simp_all

theorem checkIOrR_compat (p : Proof) (id : Nat) (r : Record) (formula : Formula)
    (left_pos : Nat) (nrf : Formula)
    (h : checkIOrR p id r formula left_pos nrf = .ok ()) :
    check_ctxt_compatibility r.ctxt (getRec p.records left_pos).ctxt = true := by
  unfold checkIOrR at h
  simp only [ne_eq] at h
  repeat' split at h
  all_goals simp_all

set_option maxHeartbeats 1600000 in
theorem checkEOr_compat (p : Proof) (id : Nat) (r : Record) (formula : Formula)
    (a_to_c b_to_c a_or_b : Nat)
    (h : checkEOr p id r formula a_to_c b_to_c a_or_b = .ok ()) :
    check_ctxt_compatibility r.ctxt (getRec p.records a_to_c).ctxt = true ∧
    check_ctxt_compatibility r.ctxt (getRec p.records b_to_c).ctxt = true ∧
    check_ctxt_compatibility r.ctxt (getRec p.records a_or_b).ctxt = true := by
  unfold checkEOr at h
  simp only [ne_eq] at h
  split at h
  · exact absurd h (by simp)
  split at h
  · exact absurd h (by simp)
  split at h
  · exact absurd h (by simp)
  split at h
  · exact absurd h (by simp)
  split at h
  · exact absurd h (by simp)
  split at h
  · exact absurd h (by simp)
  rename_i h1 h2 h3
  simp only [Bool.not_eq_true, Bool.not_eq_false] at h1 h2 h3
  exact ⟨h1, h2, h3⟩

theorem checkIAnd_compat (p : Proof) (id : Nat) (r : Record) (formula : Formula)
    (left right : Nat)
    (h : checkIAnd p id r formula left right = .ok ()) :
    check_ctxt_compatibility r.ctxt (getRec p.records left).ctxt = true ∧
    check_ctxt_compatibility r.ctxt (getRec p.records right).ctxt = true := by
  unfold checkIAnd at h
  simp only [ne_eq] at h
  repeat' split at h
  all_goals simp_all

theorem checkEAndL_compat (p : Proof) (id : Nat) (r : Record) (formula : Formula)
    (and_pos : Nat) (h : checkEAndL p id r formula and_pos = .ok ()) :
    check_ctxt_compatibility r.ctxt (getRec p.records and_pos).ctxt = true := by
  unfold checkEAndL at h
  simp only [ne_eq] at h
  repeat' split at h
  all_goals simp_all

theorem checkEAndR_compat (p : Proof) (id : Nat) (r : Record) (formula : Formula)
    (and_pos : Nat) (h : checkEAndR p id r formula and_pos = .ok ()) :
    check_ctxt_compatibility r.ctxt (getRec p.records and_pos).ctxt = true := by
  unfold checkEAndR at h
  simp only [ne_eq] at h
  repeat' split at h
  all_goals simp_all

theorem checkEImpl_compat (p : Proof) (id : Nat) (r : Record) (formula : Formula)
    (hyp implication : Nat)
    (h : checkEImpl p id r formula hyp implication = .ok ()) :
    check_ctxt_compatibility r.ctxt (getRec p.records hyp).ctxt = true ∧
    check_ctxt_compatibility r.ctxt (getRec p.records implication).ctxt = true := by
  unfold checkEImpl at h
  simp only [ne_eq] at h
  repeat' split at h
  all_goals simp_all

theorem checkEfq_compat (p : Proof) (id : Nat) (r : Record)
    (bot_pos : Nat) (h : checkEfq p id r bot_pos = .ok ()) :
    check_ctxt_compatibility r.ctxt (getRec p.records bot_pos).ctxt = true := by
  unfold checkEfq at h
  simp only [ne_eq] at h
  repeat' split at h
  all_goals simp_all

theorem checkRaa_compat (p : Proof) (id : Nat) (r : Record) (formula : Formula)
    (nn_pos : Nat) (h : checkRaa p id r formula nn_pos = .ok ()) :
    check_ctxt_compatibility r.ctxt (getRec p.records nn_pos).ctxt = true := by
  unfold checkRaa at h
  simp only [ne_eq] at h
  repeat' split at h
  all_goals simp_all

/-- C7: the context-compatibility test accepts exactly when the citing
record's context is a prefix of the cited record's context, and whenever
a record checks successfully, every record its justification cites passed
exactly this test against the citing record's context. -/
theorem claim7_ctxt_compatibility :
    (∀ current compatible : List Nat,
      check_ctxt_compatibility current compatible = true ↔
        ∃ t, compatible = current ++ t) ∧
    (∀ (p : Proof) (i : Nat) (r : Record), p.records.get? i = some r →
      check_single_record p i = .ok () →
      ∀ j ∈ citedPositions r.justif,
        check_ctxt_compatibility r.ctxt (getRec p.records j).ctxt = true) := by
  constructor
  · intro current compatible
    unfold check_ctxt_compatibility
    split
    · rename_i hlen
      simp only [Bool.false_eq_true, false_iff]
      rintro ⟨t, rfl⟩
      simp [List.length_append] at hlen
    · rename_i hlen
      push_neg at hlen
      simp only [beq_iff_eq]
      constructor
      · intro htake
        exact ⟨compatible.drop current.length, by
          conv_lhs => rw [← List.take_append_drop current.length compatible, ← htake]⟩
      · rintro ⟨t, rfl⟩
        exact (List.take_left current t).symm
  · intro p i r hget hok j hj
    unfold check_single_record at hok
    rw [hget] at hok
    dsimp only at hok
    by_cases hid : r.id ≠ i
    · rw [if_pos hid] at hok
      exact absurd hok (by simp)
    · rw [if_neg hid] at hok
      cases hstmt : r.stmt with
      | Supposons f =>
        rw [hstmt] at hok
        rw [checkSupposons_justif p i r hok] at hj
        simp [citedPositions] at hj
      | Donc f =>
        rw [hstmt] at hok
        dsimp only at hok
        cases hjust : r.justif <;> rw [hjust] at hok hj <;>
          simp only [citedPositions, List.not_mem_nil] at hj <;>
          simp at hok
      | Simple f =>
        rw [hstmt] at hok
        dsimp only at hok
        by_cases h0 : i = 0
        · rw [if_pos h0] at hok
          exact absurd hok (by simp)
        · rw [if_neg h0] at hok
          by_cases hctxt : r.ctxt ≠ (getRec p.records (i - 1)).ctxt
          · rw [if_pos hctxt] at hok
            exact absurd hok (by simp)
          · rw [if_neg hctxt] at hok
            unfold checkSimpleJustif at hok
            cases hjust : r.justif <;> rw [hjust] at hok hj <;>
              simp only [citedPositions, List.mem_cons, List.mem_singleton,
                List.not_mem_nil, or_false] at hj <;> dsimp only at hok
            · rcases hj with rfl
              exact checkIOrL_compat _ _ _ _ _ _ hok
            · rcases hj with rfl
              exact checkIOrR_compat _ _ _ _ _ _ hok
            · rcases hj with rfl | rfl | rfl
              · exact (checkEOr_compat _ _ _ _ _ _ _ hok).1
              · exact (checkEOr_compat _ _ _ _ _ _ _ hok).2.1
              · exact (checkEOr_compat _ _ _ _ _ _ _ hok).2.2
            · rcases hj with rfl | rfl
              · exact (checkIAnd_compat _ _ _ _ _ _ hok).1
              · exact (checkIAnd_compat _ _ _ _ _ _ hok).2
            · rcases hj with rfl
              exact checkEAndL_compat _ _ _ _ _ hok
            · rcases hj with rfl
              exact checkEAndR_compat _ _ _ _ _ hok
            · rcases hj with rfl | rfl
              · exact (checkEImpl_compat _ _ _ _ _ _ hok).1
              · exact (checkEImpl_compat _ _ _ _ _ _ hok).2
            · rcases hj with rfl
              exact checkEfq_compat _ _ _ _ hok
            · rcases hj with rfl
              exact checkRaa_compat _ _ _ _ _ hok

/-- A two-record proof whose second record cites record 0 via `Efq`. -/
def c7Proof : Proof :=
  ⟨[⟨0, [0], .Supposons .Bottom, .Hyp⟩,
    ⟨1, [0], .Simple (.Variable 'a'), .Efq 0⟩], .NotChecked⟩

/-- Witness for C7 at a concrete prefix pair and a concrete checked
record citing record 0. -/
theorem claim7_witness :
    check_ctxt_compatibility [0] [0, 1] = true ∧
    check_ctxt_compatibility
      (⟨1, [0], .Simple (.Variable 'a'), .Efq 0⟩ : Record).ctxt
      (getRec c7Proof.records 0).ctxt = true :=
  ⟨(claim7_ctxt_compatibility.1 [0] [0, 1]).mpr ⟨[1], rfl⟩,
   claim7_ctxt_compatibility.2 c7Proof 1
     ⟨1, [0], .Simple (.Variable 'a'), .Efq 0⟩ (by decide) (by decide) 0 (by decide)⟩

/-- `List.getLastD` is indexing at `length - 1`. -/
theorem getLastD_eq_getD (l : List Nat) (d : Nat) :
    l.getLastD d = l.getD (l.length - 1) d := by
  induction l with
  | nil => rfl
  | cons a t ih =>
    cases t with
    | nil => rfl
    | cons b t2 =>
      simp only [List.getLastD_cons, List.length_cons] at *
      simpa using ih

/-- The conditions C1 lists for a `Discharge`/`Donc(f)` record at index
`i`, written from the claim: `i > 0`; the previous record's context has
one more element and extends the current context; its last element `h`
satisfies `h + 2 ≤ i`; and `f` is `Implies(A, B)` with `A` the formula of
record `h` and `B` the formula of record `i - 1`. -/
def doncClaimConds (p : Proof) (i : Nat) (r : Record) (f : Formula) : Bool :=
  let prev := getRec p.records (i - 1)
  let h := prev.ctxt.getLastD 0
  decide (0 < i) && decide (prev.ctxt.length = r.ctxt.length + 1) &&
  (prev.ctxt.take r.ctxt.length == r.ctxt) && decide (h + 2 ≤ i) &&
  (match f with
   | .Implies A B =>
     (A == (getRec p.records h).stmt.get_formula) && (B == prev.stmt.get_formula)
   | _ => false)

/-- The result C1 prescribes for a `Discharge`/`Donc(f)` record, written
from the claim: each failing condition, in order, yields its `Donc*`
error. -/
def doncSpecResult (p : Proof) (i : Nat) (r : Record) (f : Formula) :
    Except SemanticError Unit :=
  if ¬ 0 < i then .error .DoncNotFirst
  else
    let prev := getRec p.records (i - 1)
    if prev.ctxt.length ≠ r.ctxt.length + 1 then .error .DoncCtxtOneLessThenBefore
    else if prev.ctxt.take r.ctxt.length ≠ r.ctxt then .error .DoncCtxtSameAsBefore
    else
      let h := prev.ctxt.getLastD 0
      if ¬ h + 2 ≤ i then .error .DoncHypDifCons
      else
        match f with
        | .Implies A B =>
          if A ≠ (getRec p.records h).stmt.get_formula then .error .DoncHypNotMatching
          else if B ≠ prev.stmt.get_formula then .error .DoncConsNotMatching
          else .ok ()
        | _ => .error .DoncFormulaIsImplies

set_option maxHeartbeats 1600000 in
theorem doncSpecResult_ok_iff (p : Proof) (i : Nat) (r : Record) (f : Formula) :
    doncSpecResult p i r f = .ok () ↔ doncClaimConds p i r f = true := by
  unfold doncSpecResult doncClaimConds
  dsimp only
  cases f <;> split_ifs <;> simp_all
  all_goals split_ifs <;> simp_all

set_option maxHeartbeats 1600000 in
/-- C1 (amended to require that the record's id equal its index, which
the checker verifies before any statement rule): for a record at index
`i` with statement `Donc(f)` and justification `IImpl`, checking equals
the claim's prescription `doncSpecResult` — in particular it succeeds
exactly when the claim's conditions `doncClaimConds` hold, and each
failing condition yields its `Donc*` error in the claim's order. -/
theorem claim1_donc_rule (p : Proof) (i : Nat) (r : Record) (f : Formula)
    (hget : p.records.get? i = some r) (hid : r.id = i)
    (hstmt : r.stmt = .Donc f) (hj : r.justif = .IImpl) :
    check_single_record p i = doncSpecResult p i r f ∧
    (check_single_record p i = .ok () ↔ doncClaimConds p i r f = true) := by
  have hc : check_single_record p i = checkDonc p i r f := by
    unfold check_single_record
    rw [hget]
    dsimp only
    rw [if_neg (by simp [hid])]
    rw [hstmt]
    dsimp only
    rw [hj]
  have heq : checkDonc p i r f = doncSpecResult p i r f := by
    unfold checkDonc doncSpecResult
    dsimp only
    rw [getLastD_eq_getD]
    cases f <;> split_ifs <;> first | rfl | omega
  refine ⟨hc.trans heq, ?_⟩
  rw [hc.trans heq]
  exact doncSpecResult_ok_iff p i r f

/-- A proof whose record at index 2 satisfies every condition C1 lists
for a `Donc` record while its id field is 99. -/
def c1CexProof : Proof :=
  ⟨[⟨0, [0], .Supposons (.Variable 'a'), .Hyp⟩,
    ⟨1, [0], .Simple (.Variable 'a'), .Efq 0⟩,
    ⟨99, [], .Donc (.Implies (.Variable 'a') (.Variable 'a')), .IImpl⟩], .NotChecked⟩

/-- C1 counterexample: at index 2 of `c1CexProof` the statement is
`Donc(a⇒a)` with justification `IImpl` and every condition the claim
lists holds, yet checking the record fails — with `IncorrectId`, not a
`Donc*` error — because the record's id field is 99 ≠ 2: the claim's
"if and only if" fails as stated, missing the id precondition. -/
theorem claim1_cex :
    c1CexProof.records.get? 2 =
      some ⟨99, [], .Donc (.Implies (.Variable 'a') (.Variable 'a')), .IImpl⟩ ∧
    doncClaimConds c1CexProof 2
      ⟨99, [], .Donc (.Implies (.Variable 'a') (.Variable 'a')), .IImpl⟩
      (.Implies (.Variable 'a') (.Variable 'a')) = true ∧
    check_single_record c1CexProof 2 = .error .IncorrectId := by decide

/-- Witness for C1 at the concrete discharge record of spec scenario 3. -/
theorem claim1_witness :
    check_single_record ⟨c2Records, .NotChecked⟩ 2 =
      doncSpecResult ⟨c2Records, .NotChecked⟩ 2
        ⟨2, [], .Donc (.Implies (.Variable 'a') (.Variable 'a')), .IImpl⟩
        (.Implies (.Variable 'a') (.Variable 'a')) ∧
    (check_single_record ⟨c2Records, .NotChecked⟩ 2 = .ok () ↔
      doncClaimConds ⟨c2Records, .NotChecked⟩ 2
        ⟨2, [], .Donc (.Implies (.Variable 'a') (.Variable 'a')), .IImpl⟩
        (.Implies (.Variable 'a') (.Variable 'a')) = true) :=
  claim1_donc_rule _ 2 _ _ (by decide) (by decide) (by decide) (by decide)

/-- The failing records among the first `n` (indices with their errors,
in increasing index order), written from C3. -/
def failingIn (p : Proof) (n : Nat) : List (Nat × SemanticError) :=
  (List.range n).filterMap (fun i =>
    match check_single_record p i with
    | .error e => some (i, e)
    | .ok _ => none)

/-- The first failing index among the first `n` records (0 when none). -/
def firstFailIdx (p : Proof) (n : Nat) : Nat :=
  match failingIn p n with
  | [] => 0
  | (i, _) :: _ => i

/-- The state C3 prescribes after `check_up_to(k)` when `k < N`. -/
def checkUpToSpec (p : Proof) (k : Nat) : CheckUpResult :=
  match failingIn p (k + 1) with
  | [] => if k + 1 = p.records.length then .Valid else .ValidUntil (k + 1)
  | (i, _) :: _ => .SemanticErrors i (failingIn p (k + 1))

theorem failingIn_succ (p : Proof) (n : Nat) :
    failingIn p (n + 1) =
      failingIn p n ++
        (match check_single_record p n with
          | .error e => [(n, e)]
          | .ok _ => []) := by
  unfold failingIn
  rw [List.range_succ, List.filterMap_append]
  rcases hc : check_single_record p n with _ | e <;>
    simp [List.filterMap_cons, hc]

theorem checkUpFold (p : Proof) (n : Nat) :
    (List.range n).foldl (checkUpStep p) (false, 0, []) =
      (!(failingIn p n).isEmpty, firstFailIdx p n, failingIn p n) := by
  induction n with
  | zero => rfl
  | succ n ih =>
    rw [List.range_succ, List.foldl_append, ih, List.foldl_cons, List.foldl_nil]
    unfold checkUpStep
    rcases hc : check_single_record p n with e | _
    · dsimp only
      unfold firstFailIdx
      rw [failingIn_succ, hc]
      rcases hE : failingIn p n with _ | ⟨⟨i0, e0⟩, t⟩ <;> simp [hE]
    · dsimp only
      unfold firstFailIdx
      rw [failingIn_succ, hc]
      simp

/-- C3: for `k < N`, `check_up_to(k)` checks all of `0..=k` with no
short-circuit: the state becomes `Valid` when `k+1 = N` and every record
passes, `ValidUntil(k+1)` when they pass and `k+1 < N`, and otherwise
`SemanticErrors` listing one `(index, error)` pair per failing record in
increasing index order with `first_error` the smallest failing index;
for `k ≥ N` it returns `Err` with the state unchanged. -/
theorem claim3_check_up_to (p : Proof) (k : Nat) :
    (p.records.length ≤ k → p.check_up_to k = (p, false)) ∧
    (k < p.records.length →
      p.check_up_to k = ({ p with valid := checkUpToSpec p k }, true)) ∧
    (∀ i e, (i, e) ∈ failingIn p (k + 1) ↔
      i ≤ k ∧ check_single_record p i = .error e) ∧
    (failingIn p (k + 1)).Pairwise (fun a b => a.1 < b.1) ∧
    (∀ fe errs, checkUpToSpec p k = .SemanticErrors fe errs →
      errs = failingIn p (k + 1) ∧ (∃ e, (fe, e) ∈ errs) ∧ ∀ q ∈ errs, fe ≤ q.1) := by
  have hpair : (failingIn p (k + 1)).Pairwise (fun a b => a.1 < b.1) := by
    unfold failingIn
    refine List.Pairwise.filterMap _ ?_ (List.pairwise_lt_range (k + 1))
    intro a b hab x hx y hy
    rcases hca : check_single_record p a with ea | _ <;> rw [hca] at hx
    · rcases hcb : check_single_record p b with eb | _ <;> rw [hcb] at hy
      · rcases hx with ⟨⟩
        rcases hy with ⟨⟩
        simpa using hab
      · cases hy
    · cases hx
  refine ⟨?_, ?_, ?_, hpair, ?_⟩
  · intro h
    unfold Proof.check_up_to
    rw [if_pos (by omega)]
  · intro h
    unfold Proof.check_up_to
    rw [if_neg (by omega)]
    dsimp only
    rw [checkUpFold]
    unfold checkUpToSpec firstFailIdx
    rcases hE : failingIn p (k + 1) with _ | ⟨⟨i0, e0⟩, t⟩ <;> simp [hE]
  · intro i e
    unfold failingIn
    rw [List.mem_filterMap]
    constructor
    · rintro ⟨a, ha, hf⟩
      rcases hc : check_single_record p a with e2 | _ <;> rw [hc] at hf
      · rcases hf with ⟨⟩
        exact ⟨Nat.lt_succ_iff.mp (List.mem_range.mp ha), hc⟩
      · cases hf
    · rintro ⟨hik, hc⟩
      exact ⟨i, List.mem_range.mpr (Nat.lt_succ_of_le hik), by rw [hc]⟩
  · intro fe errs hspec
    unfold checkUpToSpec at hspec
    rcases hE : failingIn p (k + 1) with _ | ⟨⟨i0, e0⟩, t⟩ <;> rw [hE] at hspec
    · dsimp only at hspec
      split at hspec <;> cases hspec
    · rcases hspec with ⟨⟩
      rw [hE] at hpair
      refine ⟨rfl, ⟨e0, List.mem_cons_self _ _⟩, ?_⟩
      intro q hq
      rcases List.mem_cons.mp hq with rfl | hq2
      · exact Nat.le_refl _
      · exact Nat.le_of_lt ((List.pairwise_cons.mp hpair).1 q hq2)

/-- Witness for C3 at the scenario-3 proof, for `k = 1 < 3` and
`k = 5 ≥ 3`. -/
theorem claim3_witness :
    (⟨c2Records, .NotChecked⟩ : Proof).check_up_to 1 =
      (⟨c2Records, checkUpToSpec ⟨c2Records, .NotChecked⟩ 1⟩, true) ∧
    (⟨c2Records, .NotChecked⟩ : Proof).check_up_to 5 =
      (⟨c2Records, .NotChecked⟩, false) :=
  ⟨(claim3_check_up_to ⟨c2Records, .NotChecked⟩ 1).2.1 (by decide),
   (claim3_check_up_to ⟨c2Records, .NotChecked⟩ 5).1 (by decide)⟩

theorem getRec_get? (rs : List Record) (i : Nat) (h : i < rs.length) :
    rs.get? i = some (getRec rs i) := by
  simp [getRec, List.getD_eq_getElem?_getD, List.getElem?_eq_getElem h,
    List.get?_eq_getElem?]

theorem checkSupposons_ok_pos (p : Proof) (i : Nat) (r : Record) (h0 : i ≠ 0)
    (h : checkSupposons p i r = .ok ()) :
    r.ctxt.length = (getRec p.records (i - 1)).ctxt.length + 1 ∧
    r.ctxt.take (r.ctxt.length - 1) = (getRec p.records (i - 1)).ctxt ∧
    r.ctxt.getD (r.ctxt.length - 1) 0 = r.id := by
  unfold checkSupposons at h
  rw [if_pos h0] at h
  dsimp only at h
  repeat' split at h
  all_goals simp_all

theorem checkSupposons_ok_zero (p : Proof) (r : Record)
    (h : checkSupposons p 0 r = .ok ()) :
    r.ctxt.length = 1 ∧ r.ctxt.getD 0 0 = r.id := by
  unfold checkSupposons at h
  rw [if_neg (by simp)] at h
  repeat' split at h
  all_goals simp_all

theorem checkDonc_ok (p : Proof) (i : Nat) (r : Record) (f : Formula)
    (h : checkDonc p i r f = .ok ()) :
    i ≠ 0 ∧ (getRec p.records (i - 1)).ctxt.length = r.ctxt.length + 1 ∧
    (getRec p.records (i - 1)).ctxt.take r.ctxt.length = r.ctxt := by
  unfold checkDonc at h
  dsimp only at h
  repeat' split at h
  all_goals simp_all

theorem eq_append_of_take_getD (l t : List Nat) (v n : Nat)
    (hlen : l.length = n + 1) (htake : l.take n = t) (hget : l.getD n 0 = v) :
    l = t ++ [v] := by
  have hn : n < l.length := by omega
  have hdrop : l.drop n = [l[n]] := by
    rw [List.drop_eq_getElem_cons hn, List.drop_eq_nil_of_le (by omega)]
  have hv : l[n] = v := by
    rw [← List.getD_eq_getElem l 0 hn, hget]
  rw [← htake, ← hv, ← hdrop, List.take_append_drop]

theorem failingIn_eq_nil_iff (p : Proof) (n : Nat) :
    failingIn p n = [] ↔ ∀ i < n, check_single_record p i = .ok () := by
  unfold failingIn
  rw [List.filterMap_eq_nil_iff]
  constructor
  · intro h i hin
    have h2 := h i (List.mem_range.mpr hin)
    rcases hc : check_single_record p i with e | u
    · rw [hc] at h2
      cases h2
    · cases u
      rfl
  · intro h a ha
    rw [h a (List.mem_range.mp ha)]

theorem check_valid_all_ok (p : Proof) (hne : p.records ≠ [])
    (hv : ((p.check).1).valid = .Valid) :
    ∀ i < p.records.length, check_single_record p i = .ok () := by
  have hlen : 0 < p.records.length := List.length_pos.mpr hne
  unfold Proof.check at hv
  rw [if_neg (by simpa using hne)] at hv
  unfold Proof.check_up_to at hv
  rw [if_neg (by omega)] at hv
  dsimp only at hv
  rw [checkUpFold] at hv
  have hlen2 : p.records.length - 1 + 1 = p.records.length := by omega
  rw [hlen2] at hv
  rcases hE : failingIn p p.records.length with _ | ⟨⟨i0, e0⟩, t⟩
  · exact fun i hi => (failingIn_eq_nil_iff p p.records.length).mp hE i hi
  · rw [hE] at hv
    simp at hv

theorem ctxt_invariant_aux (p : Proof)
    (hok : ∀ j < p.records.length, check_single_record p j = .ok ()) :
    ∀ i, i < p.records.length →
      (getRec p.records i).ctxt.Pairwise (fun a b => a < b) ∧
      (∀ x ∈ (getRec p.records i).ctxt, x ≤ i) ∧
      (getRec p.records i).id = i := by
  intro i
  induction i with
  | zero =>
    intro hi
    have h := hok 0 hi
    unfold check_single_record at h
    rw [getRec_get? _ _ hi] at h
    dsimp only at h
    by_cases hid : (getRec p.records 0).id ≠ 0
    · rw [if_pos hid] at h
      exact absurd h (by simp)
    · rw [if_neg hid] at h
      push_neg at hid
      cases hstmt : (getRec p.records 0).stmt with
      | Supposons f =>
        rw [hstmt] at h
        obtain ⟨hlen, hget⟩ := checkSupposons_ok_zero p _ h
        have hl : (getRec p.records 0).ctxt = [] ++ [(getRec p.records 0).id] :=
          eq_append_of_take_getD _ [] _ 0 hlen (by simp) hget
        rw [hid] at hl
        simp only [List.nil_append] at hl
        rw [hl]
        refine ⟨by simp, by simp, hid⟩
      | Donc f =>
        rw [hstmt] at h
        dsimp only at h
        rcases hjust : (getRec p.records 0).justif <;> rw [hjust] at h <;>
          first
          | exact absurd (checkDonc_ok p 0 _ _ h).1 (by simp)
          | simp at h
      | Simple f =>
        rw [hstmt] at h
        dsimp only at h
        rw [if_pos rfl] at h
        exact absurd h (by simp)
  | succ n ih =>
    intro hi
    have hn : n < p.records.length := by omega
    obtain ⟨ihp, ihb, ihid⟩ := ih hn
    have h := hok (n + 1) hi
    unfold check_single_record at h
    rw [getRec_get? _ _ hi] at h
    dsimp only at h
    by_cases hid : (getRec p.records (n + 1)).id ≠ n + 1
    · rw [if_pos hid] at h
      exact absurd h (by simp)
    · rw [if_neg hid] at h
      push_neg at hid
      have hprev : getRec p.records (n + 1 - 1) = getRec p.records n := by norm_num
      cases hstmt : (getRec p.records (n + 1)).stmt with
      | Supposons f =>
        rw [hstmt] at h
        obtain ⟨hlen, htake, hget⟩ := checkSupposons_ok_pos p (n + 1) _ (by omega) h
        rw [hprev] at hlen htake
        have hlen1 : (getRec p.records (n + 1)).ctxt.length - 1 =
            (getRec p.records n).ctxt.length := by omega
        rw [hlen1] at htake hget
        have hl : (getRec p.records (n + 1)).ctxt =
            (getRec p.records n).ctxt ++ [(getRec p.records (n + 1)).id] :=
          eq_append_of_take_getD _ _ _ ((getRec p.records n).ctxt.length)
            hlen htake hget
        rw [hid] at hl
        rw [hl]
        refine ⟨?_, ?_, hid⟩
        · rw [List.pairwise_append]
          refine ⟨ihp, by simp, ?_⟩
          intro a ha b hb
          rw [List.mem_singleton] at hb
          subst hb
          exact Nat.lt_succ_of_le (ihb a ha)
        · intro x hx
          rcases List.mem_append.mp hx with hx2 | hx2
          · exact Nat.le_succ_of_le (ihb x hx2)
          · rw [List.mem_singleton] at hx2
            omega
      | Donc f =>
        rw [hstmt] at h
        dsimp only at h
        have hDonc : checkDonc p (n + 1) (getRec p.records (n + 1)) f = .ok () := by
          rcases hjust : (getRec p.records (n + 1)).justif <;> rw [hjust] at h <;>
            first
            | exact h
            | simp at h
        obtain ⟨-, hlen, htake⟩ := checkDonc_ok p (n + 1) _ _ hDonc
        rw [hprev] at hlen htake
        refine ⟨?_, ?_, hid⟩
        · rw [← htake]
          exact List.Pairwise.sublist (List.take_sublist _ _) ihp
        · intro x hx
          rw [← htake] at hx
          exact Nat.le_succ_of_le (ihb x (List.take_subset _ _ hx))
      | Simple f =>
        rw [hstmt] at h
        dsimp only at h
        rw [if_neg (by omega)] at h
        by_cases hctxt : (getRec p.records (n + 1)).ctxt ≠
            (getRec p.records (n + 1 - 1)).ctxt
        · rw [if_pos hctxt] at h
          exact absurd h (by simp)
        · push_neg at hctxt
          rw [hprev] at hctxt
          rw [hctxt]
          exact ⟨ihp, fun x hx => Nat.le_succ_of_le (ihb x hx), hid⟩

/-- C4 counterexample: the one-record proof `Supposons a` checks `Valid`,
yet its record has context `[0]` and id `0` — the context element equals
the id instead of being strictly below it (a hypothesis record's context
always ends with its own id). -/
theorem claim4_cex :
    (((⟨[⟨0, [0], .Supposons (.Variable 'a'), .Hyp⟩], .NotChecked⟩ : Proof).check).1).valid
      = .Valid ∧
    ¬ (∀ x ∈ (⟨0, [0], .Supposons (.Variable 'a'), .Hyp⟩ : Record).ctxt,
        x < (⟨0, [0], .Supposons (.Variable 'a'), .Hyp⟩ : Record).id) := by decide

/-- C4 (amended): in every proof whose `check()` verdict is `Valid`,
every record's context is a strictly increasing sequence of record
indices, each at most the record's id (a Hypothesis record's last context
element equals its own id; all other elements are smaller). -/
theorem claim4_ctxt_invariant (p : Proof)
    (hv : ((p.check).1).valid = .Valid) :
    ∀ r ∈ p.records, r.ctxt.Pairwise (fun a b => a < b) ∧
      ∀ x ∈ r.ctxt, x ≤ r.id := by
  intro r hr
  have hne : p.records ≠ [] := List.ne_nil_of_mem hr
  obtain ⟨i, hi, hrg⟩ := List.mem_iff_getElem.mp hr
  have hgr : getRec p.records i = r := by
    rw [getRec, List.getD_eq_getElem?_getD, List.getElem?_eq_getElem hi]
    simpa using hrg
  obtain ⟨hp, hb, hid⟩ := ctxt_invariant_aux p (check_valid_all_ok p hne hv) i hi
  rw [hgr] at hp hb hid
  exact ⟨hp, fun x hx => hid ▸ hb x hx⟩

/-- Witness for C4 at the one-record proof `Supposons a`. -/
theorem claim4_witness :
    (⟨0, [0], .Supposons (.Variable 'a'), .Hyp⟩ : Record).ctxt.Pairwise
      (fun a b => a < b) ∧
    ∀ x ∈ (⟨0, [0], .Supposons (.Variable 'a'), .Hyp⟩ : Record).ctxt,
      x ≤ (⟨0, [0], .Supposons (.Variable 'a'), .Hyp⟩ : Record).id :=
  claim4_ctxt_invariant ⟨[⟨0, [0], .Supposons (.Variable 'a'), .Hyp⟩], .NotChecked⟩
    (by decide) ⟨0, [0], .Supposons (.Variable 'a'), .Hyp⟩ (by decide)

end DN
